import Mathlib

/-!
Shallow embedding of the Splynx-UISP payment bridge backend
(webhook route, identity resolution, retry engine, UISP forwarder,
ledger database helpers), with theorems checking the specification
claims against the embedded code.
-/

/-- JavaScript values as they occur in webhook payloads. -/
inductive JSValue where
  | vUndefined : JSValue
  | vNull : JSValue
  | vBool (b : Bool) : JSValue
  | vNum (n : Int) : JSValue
  | vStr (s : String) : JSValue
  | vObj (fields : List (String × JSValue)) : JSValue

/-- JavaScript truthiness of a value. -/
def truthy : JSValue → Bool
  | .vUndefined => false
  | .vNull => false
  | .vBool b => b
  | .vNum n => n != 0
  | .vStr s => s != ""
  | .vObj _ => true

/-- Property read, `obj[k]`; undefined for missing keys and non-objects. -/
def getField (v : JSValue) (k : String) : JSValue :=
  match v with
  | .vObj fs =>
    match fs.find? (fun p => p.fst == k) with
    | some p => p.snd
    | none => .vUndefined
  | _ => .vUndefined

/-- List-level property write: replace in place if the key exists, else append. -/
def setFields (fs : List (String × JSValue)) (k : String) (x : JSValue) :
    List (String × JSValue) :=
  match fs with
  | [] => [(k, x)]
  | p :: rest => if p.fst == k then (k, x) :: rest else p :: setFields rest k x

/-- Property write, `obj[k] = x`; silently ignored on non-objects. -/
def setField (v : JSValue) (k : String) (x : JSValue) : JSValue :=
  match v with
  | .vObj fs => .vObj (setFields fs k x)
  | other => other

/-- Length of `Object.keys(v)`: field count for objects, character count for strings. -/
def keysLen : JSValue → Nat
  | .vObj fs => fs.length
  | .vStr s => s.length
  | _ => 0

/-- The JavaScript `a || b` operator on values. -/
def jsOr (a b : JSValue) : JSValue :=
  if truthy a then a else b

/-- JavaScript string conversion of a value. -/
def jsToString : JSValue → String
  | .vStr s => s
  | .vNum n => toString n
  | .vBool b => if b then "true" else "false"
  | .vNull => "null"
  | .vUndefined => "undefined"
  | .vObj _ => "[object Object]"

/-- A UISP client as returned by the UISP clients collection endpoint. -/
structure UISPClient where
  id : Nat
  userIdent : String
deriving DecidableEq

/-- Model of `findUISPClientByUserIdent` (src/src/routes/api.js): throws when
the application key is missing, forwards transport failures, and otherwise
performs a single fetch with limit 1000 that is filtered client-side by
userIdent equality, returning null when no client matches. -/
def findUISPClientByUserIdent (appKey : Option String)
    (fetchClients : Nat → Except String (List UISPClient)) (userIdent : String) :
    Except String (Option UISPClient) :=
  match appKey with
  | none => .error "UISP_APP_KEY not configured"
  | some _ =>
    match fetchClients 1000 with
    | .error e => .error e
    | .ok cs => .ok (cs.find? (fun c => c.userIdent == userIdent))

/-- Result of a run of the retry engine: the final outcome, the number of
invocations of the retried operation, and the number of observer callback
invocations that completed without an error. -/
structure RetryResult (α : Type) where
  result : Except String α
  attempts : Nat
  observerOk : Nat

/-- Loop of `retryWithBackoff` (src/unnamed/part_003), with the remaining
retry budget `maxRetries - attempt` made explicit as structural fuel: the
current attempt runs; on failure, when retries remain, the optional observer
runs before the next attempt, and an observer error propagates out of the
loop; when no retries remain the last error is re-raised. -/
def retryLoop (f : Nat → Except String α)
    (onRetry : Option (Nat → Except String Unit)) :
    Nat → Nat → RetryResult α
  | attempt, 0 =>
    match f attempt with
    | .ok a => ⟨.ok a, 1, 0⟩
    | .error e => ⟨.error e, 1, 0⟩
  | attempt, remaining + 1 =>
    match f attempt with
    | .ok a => ⟨.ok a, 1, 0⟩
    | .error _ =>
      match onRetry with
      | none =>
        let r := retryLoop f none (attempt + 1) remaining
        ⟨r.result, r.attempts + 1, r.observerOk⟩
      | some g =>
        match g (attempt + 1) with
        | .error e2 => ⟨.error e2, 1, 0⟩
        | .ok _ =>
          let r := retryLoop f (some g) (attempt + 1) remaining
          ⟨r.result, r.attempts + 1, r.observerOk + 1⟩

/-- Model of `retryWithBackoff`: run the operation up to `maxRetries + 1` times,
starting at attempt 0 with the full retry budget. -/
def retryWithBackoff (f : Nat → Except String α)
    (onRetry : Option (Nat → Except String Unit)) (maxRetries : Nat) :
    RetryResult α :=
  retryLoop f onRetry 0 maxRetries

/-- External collaborators and ambient configuration of one webhook request:
the UISP application key, the UISP clients fetch, the Splynx customer login
lookup, the outcome of each UISP payment POST attempt, the outcome of each
retry observer run (`updateRetryCount`), the configured retry budget, and the
intake clock. -/
structure Env where
  appKey : Option String
  fetchClients : Nat → Except String (List UISPClient)
  splynxLogin : String → Except String String
  attempts : Nat → Except String String
  retryObserver : Nat → Except String Unit
  maxRetries : Nat
  now : Nat
  nowIso : String

/-- Model of `postPaymentToUISP` (src/unnamed/part_001): fails outright when the
application key is missing, otherwise runs the POST through the retry engine
with the retry-count observer installed. -/
def postPaymentToUISP (env : Env) : RetryResult String :=
  match env.appKey with
  | none => ⟨.error "UISP_APP_KEY not configured", 0, 0⟩
  | some _ => retryWithBackoff env.attempts (some env.retryObserver) env.maxRetries

/-- Two-digit zero padding, `String(n).padStart(2, "0")` for n < 100. -/
def pad2 (n : Nat) : String :=
  if n < 10 then "0" ++ toString n else toString n

/-- Gregorian calendar date for a day count since 1970-01-01 (non-negative). -/
def civilFromDays (z : Nat) : Nat × Nat × Nat :=
  let z' := z + 719468
  let era := z' / 146097
  let doe := z' % 146097
  let yoe := (doe - doe / 1460 + doe / 36524 - doe / 146096) / 365
  let y := yoe + era * 400
  let doy := doe - (365 * yoe + yoe / 4 - yoe / 100)
  let mp := (5 * doy + 2) / 153
  let d := doy - (153 * mp + 2) / 5 + 1
  let m := if mp < 10 then mp + 3 else mp - 9
  (if m ≤ 2 then y + 1 else y, m, d)

/-- Model of `formatUispDateTime` (src/unnamed/part_001) on an epoch-seconds
timestamp: it renders the UTC calendar fields and adds 3 to the UTC hours
without any rollover. -/
def formatUispDateTime (t : Nat) : String :=
  let days := t / 86400
  let sod := t % 86400
  let ymd := civilFromDays days
  let hh := sod / 3600 + 3
  let mm := sod % 3600 / 60
  let ss := sod % 60
  toString ymd.fst ++ "-" ++ pad2 ymd.snd.fst ++ "-" ++ pad2 ymd.snd.snd ++ "T" ++
    pad2 hh ++ ":" ++ pad2 mm ++ ":" ++ pad2 ss ++ "+03:00"

/-- A row of the payments table (src/src/utils/database.js, initializeSchema). -/
structure PaymentRecord where
  transaction_id : String
  client_id : Nat
  amount : JSValue
  currency_code : String
  payment_type : JSValue
  payment_method : JSValue
  created_at : JSValue
  status : String
  uisp_response : Option String
  error_message : Option String
  retry_count : Nat

/-- The ledger database: payments table and customer_mappings table. -/
structure DB where
  payments : List PaymentRecord
  mappings : List (String × Nat)

/-- A write against the ledger issued by the pipeline: `insertPayment`,
`updatePaymentStatus`, or `updateRetryCount`. -/
inductive DBOp where
  | insert (pr : PaymentRecord)
  | updateStatus (tx status : String) (uispResponse errorMessage : Option String)
  | updateRetry (tx : String) (n : Nat)

/-- Apply one ledger write. -/
def applyOp (db : DB) : DBOp → DB
  | .insert pr => { db with payments := db.payments ++ [pr] }
  | .updateStatus tx st u e =>
    { db with payments := db.payments.map (fun r =>
        if r.transaction_id == tx then
          { r with status := st, uisp_response := u, error_message := e }
        else r) }
  | .updateRetry tx n =>
    { db with payments := db.payments.map (fun r =>
        if r.transaction_id == tx then { r with retry_count := n } else r) }

/-- Apply a sequence of ledger writes in order. -/
def applyOps (db : DB) (ops : List DBOp) : DB := ops.foldl applyOp db

/-- Model of `dbHelpers.getPaymentByTransactionId`. -/
def getPaymentByTransactionId (db : DB) (tx : String) : Option PaymentRecord :=
  db.payments.find? (fun r => r.transaction_id == tx)

/-- Model of `dbHelpers.getUispClientId`: look up the customer mapping table. -/
def getUispClientId (mappings : List (String × Nat)) (sid : String) : Option Nat :=
  (mappings.find? (fun p => p.fst == sid)).map Prod.snd

/-- Number of payment rows carrying a given transaction id. -/
def countTx (db : DB) (tx : String) : Nat :=
  (db.payments.filter (fun r => r.transaction_id == tx)).length

/-- Truthiness of the accumulated `uispClientId` variable in the route:
null and 0 are both falsy. -/
def truthyId : Option Nat → Bool
  | some n => n != 0
  | none => false

/-- Strategy 1 of the route (src/unnamed/part_000): fetch the customer login
from the Splynx API, then search UISP by that login as userIdent; any error in
either call is caught and yields no result. -/
def method1 (env : Env) (sid : JSValue) : Option Nat :=
  match env.splynxLogin (jsToString sid) with
  | .error _ => none
  | .ok login =>
    match findUISPClientByUserIdent env.appKey env.fetchClients login with
    | .error _ => none
    | .ok none => none
    | .ok (some c) => some c.id

/-- Strategy 2 of the route: for identifiers starting with W, search UISP
directly by the raw identifier as userIdent; errors are caught. -/
def method2 (env : Env) (s : String) : Option Nat :=
  if (s.toUpper).startsWith "W" then
    match findUISPClientByUserIdent env.appKey env.fetchClients s with
    | .error _ => none
    | .ok none => none
    | .ok (some c) => some c.id
  else none

/-- Outcome of the identity resolution section of the route. The Boolean on
`found` records whether the mapping table was consulted. `typeError` is the
TypeError raised by calling toUpperCase on a non-string identifier. -/
inductive Resolution where
  | found (cid : Nat) (consultedMapping : Bool)
  | notFound
  | typeError
deriving DecidableEq

/-- The three-strategy client resolution of the route (src/unnamed/part_000
lines 188-233): strategy 1, then for W-prefixed identifiers strategy 2, then
the mapping table; the toUpperCase call on a non-string identifier throws. -/
def resolveClient (env : Env) (mappings : List (String × Nat)) (sid : JSValue) :
    Resolution :=
  let u1 := method1 env sid
  if truthyId u1 = true then .found (u1.getD 0) false
  else
    match sid with
    | .vStr s =>
      let u2 := method2 env s
      if truthyId u2 = true then .found (u2.getD 0) false
      else
        let u3 := getUispClientId mappings s
        if truthyId u3 = true then .found (u3.getD 0) true
        else .notFound
    | _ => .typeError

/-- Payload extraction of the route: JSON API envelope, then a nested payment
object, then the bare body; returns the payment data and the source customer
identifier value. -/
def extractPayment (body : JSValue) : JSValue × JSValue :=
  if truthy (getField body "data") = true ∧
      truthy (getField (getField body "data") "attributes") = true then
    (getField (getField body "data") "attributes",
      getField (getField body "data") "customer_id")
  else if truthy (getField body "payment") = true then
    (getField body "payment",
      jsOr (getField (getField body "payment") "customer_id")
        (getField (getField body "payment") "client_id"))
  else
    (body, jsOr (getField body "customer_id") (getField body "client_id"))

/-- The fallback re-extraction of the customer identifier from the payment
data when the shape-level extraction produced a falsy identifier. -/
def ensureSid (pd sid0 : JSValue) : JSValue :=
  if truthy sid0 = true then sid0
  else jsOr (getField pd "customer_id") (getField pd "client_id")

/-- Injection of the resolved UISP client id and the source customer id into
the payment data, as done by the route before field validation. -/
def injectIds (pd0 sid : JSValue) (cid : Nat) : JSValue :=
  setField (setField pd0 "client_id" (.vNum (cid : Int))) "splynx_customer_id" sid

/-- The required-field check of the route: fields among client_id and amount
whose value is falsy. -/
def requiredMissing (pd1 : JSValue) : List String :=
  (["client_id", "amount"]).filter (fun f => truthy (getField pd1 f) = false)

/-- The payment record built by the route and inserted by
`dbHelpers.insertPayment`, which hard-codes status pending and leaves the
response, error and retry columns at their defaults. -/
def mkRecord (env : Env) (pd1 : JSValue) (cid : Nat) (tx : String) : PaymentRecord :=
  { transaction_id := tx
    client_id := cid
    amount := getField pd1 "amount"
    currency_code :=
      if truthy (getField pd1 "currency_code") = true then
        jsToString (getField pd1 "currency_code")
      else "KES"
    payment_type := getField pd1 "payment_type"
    payment_method := jsOr (getField pd1 "payment_method") (getField pd1 "payment_type")
    created_at :=
      if truthy (getField pd1 "created_at") = true then getField pd1 "created_at"
      else .vStr env.nowIso
    status := "pending"
    uisp_response := none
    error_message := none
    retry_count := 0 }

/-- Outcome of a webhook request: HTTP status, selected response body fields,
the ledger writes issued, and whether and how often the forwarder ran. -/
structure HandlerResult where
  httpStatus : Nat
  message : Option String
  errorMsg : Option String
  echoedStatus : Option String
  missingFields : List String
  ops : List DBOp
  forwarderInvoked : Bool
  forwarderAttempts : Nat

/-- Response to a ping or connectivity test (HTTP 200). -/
def pingResult : HandlerResult :=
  ⟨200, some "Webhook endpoint is active and ready to receive payments",
    none, none, [], [], false, 0⟩

/-- Response to a minimal test request lacking a customer identifier (HTTP 200). -/
def noCustomerTestResult : HandlerResult :=
  ⟨200, some "Webhook endpoint is active and ready to receive payments",
    none, none, [], [], false, 0⟩

/-- Rejection of a payload without customer identification (HTTP 400). -/
def missingCustomerResult : HandlerResult :=
  ⟨400, none, some "Missing customer identification", none, [], [], false, 0⟩

/-- Rejection when no UISP client could be resolved (HTTP 400). -/
def customerNotFoundResult : HandlerResult :=
  ⟨400, none, some "Customer not found", none, [], [], false, 0⟩

/-- Response when the handler itself throws (HTTP 500). -/
def internalErrorResult : HandlerResult :=
  ⟨500, none, some "Internal server error", none, [], [], false, 0⟩

/-- Response to a minimal test request with incomplete payment data (HTTP 200). -/
def minimalTestResult : HandlerResult :=
  ⟨200, some "Webhook endpoint is active. Required fields for actual payments: client_id, amount",
    none, none, [], [], false, 0⟩

/-- Rejection listing the falsy required fields (HTTP 400). -/
def missingFieldsResult (missing : List String) : HandlerResult :=
  ⟨400, none, some "Missing required fields", none, missing, [], false, 0⟩

/-- Idempotent replay response echoing the stored record status (HTTP 200). -/
def duplicateResult (existing : PaymentRecord) : HandlerResult :=
  ⟨200, some "Payment already processed", none, some existing.status, [], [], false, 0⟩

/-- Final stage of the route: idempotency check against the ledger, insert of
the pending record, forward to UISP through the retry engine, and the single
status update to success or failed. -/
def processPayment (env : Env) (db : DB) (pd1 : JSValue) (cid : Nat) (tx : String) :
    HandlerResult :=
  match getPaymentByTransactionId db tx with
  | some existing => duplicateResult existing
  | none =>
    let pr := mkRecord env pd1 cid tx
    let fw := postPaymentToUISP env
    let retryOps := (List.range fw.observerOk).map (fun i => DBOp.updateRetry tx (i + 1))
    match fw.result with
    | .ok resp =>
      { httpStatus := 200, message := some "Payment successfully posted to UISP",
        errorMsg := none, echoedStatus := none, missingFields := [],
        ops := DBOp.insert pr :: retryOps ++ [DBOp.updateStatus tx "success" (some resp) none],
        forwarderInvoked := true, forwarderAttempts := fw.attempts }
    | .error e =>
      { httpStatus := 500, message := some e,
        errorMsg := some "Failed to post payment to UISP", echoedStatus := none,
        missingFields := [],
        ops := DBOp.insert pr :: retryOps ++ [DBOp.updateStatus tx "failed" none (some e)],
        forwarderInvoked := true, forwarderAttempts := fw.attempts }

/-- Field validation and transaction id synthesis of the route, after client
resolution succeeded. -/
def afterResolve (env : Env) (db : DB) (pd0 sid : JSValue) (cid : Nat) :
    HandlerResult :=
  let pd1 := injectIds pd0 sid cid
  let missing := requiredMissing pd1
  if missing = [] then
    let tx :=
      if truthy (getField pd1 "transaction_id") = true then
        jsToString (getField pd1 "transaction_id")
      else "SPLYNX-" ++ toString env.now ++ "-" ++ toString cid
    processPayment env db pd1 cid tx
  else if keysLen pd1 < 3 then minimalTestResult
  else missingFieldsResult missing

/-- Model of the POST /webhook/payment route (src/unnamed/part_000): payload
extraction, ping detection, customer identification, three-strategy client
resolution, field validation, idempotency check, pending insert, forward, and
final status update. -/
def handleWebhook (env : Env) (db : DB) (body : JSValue) : HandlerResult :=
  let pds := extractPayment body
  let pd0 := pds.fst
  let sid0 := pds.snd
  if truthy pd0 = false ∨ keysLen pd0 = 0 then pingResult
  else
    let sid := ensureSid pd0 sid0
    if truthy sid = false then
      if truthy (getField pd0 "amount") = false ∨ keysLen pd0 < 2 then
        noCustomerTestResult
      else missingCustomerResult
    else
      match resolveClient env db.mappings sid with
      | .typeError => internalErrorResult
      | .notFound => customerNotFoundResult
      | .found cid _ => afterResolve env db pd0 sid cid

/-! Concrete fixtures used to evaluate the model on closed inputs. -/

/-- An environment in which every external collaborator fails and no UISP
application key is configured. -/
def envNoKey : Env :=
  ⟨none, fun _ => .error "down", fun _ => .error "down", fun _ => .error "down",
    fun _ => .ok (), 3, 0, "1970-01-01T00:00:00.000Z"⟩

/-- An environment in which resolution strategy 1 resolves to UISP client 7 and
the forwarder succeeds on the first attempt. -/
def envOk : Env :=
  ⟨some "key", fun _ => .ok [⟨7, "LOGIN7"⟩], fun _ => .ok "LOGIN7",
    fun _ => .ok "resp-body", fun _ => .ok (), 3, 99, "2025-01-01T00:00:00.000Z"⟩

/-- An environment in which resolution strategy 1 resolves to UISP client 7 and
every forwarder attempt fails. -/
def envFail : Env :=
  ⟨some "key", fun _ => .ok [⟨7, "LOGIN7"⟩], fun _ => .ok "LOGIN7",
    fun i => .error ("boom" ++ toString i), fun _ => .ok (), 3, 99,
    "2025-01-01T00:00:00.000Z"⟩

/-- The empty ledger. -/
def dbEmpty : DB := ⟨[], []⟩

/-- A successful payment row with transaction id TX1. -/
def dbOneRecord : PaymentRecord :=
  ⟨"TX1", 7, .vNum 50, "KES", .vUndefined, .vUndefined, .vStr "2025-01-01", "success",
    some "resp", none, 0⟩

/-- A ledger holding one successful payment with transaction id TX1. -/
def dbOne : DB := ⟨[dbOneRecord], []⟩

/-- A payload carrying a customer id, an amount and a transaction id. -/
def bodyFull : JSValue :=
  .vObj [("customer_id", .vStr "C9"), ("amount", .vNum 50),
    ("transaction_id", .vStr "TX1")]

/-- A payload whose only field is a non-zero amount. -/
def bodyAmountOnly : JSValue := .vObj [("amount", .vNum 5)]

/-- A payload with an amount and another field but no customer identifier. -/
def bodyAmountFoo : JSValue := .vObj [("amount", .vNum 5), ("note", .vStr "x")]

/-- A payload with zero amount, a customer id and a transaction id. -/
def bodyZeroAmount : JSValue :=
  .vObj [("customer_id", .vStr "C9"), ("amount", .vNum 0),
    ("transaction_id", .vStr "TX1")]

/-! Helper lemmas about field access and ledger writes. -/

theorem find?_append_of_none {α} (p : α → Bool) {l₁ : List α} (l₂ : List α)
    (h : l₁.find? p = none) : (l₁ ++ l₂).find? p = l₂.find? p := by
  induction l₁ with
  | nil => simp
  | cons a l ih =>
    cases hpa : p a with
    | true => simp [List.find?, hpa] at h
    | false =>
      simp only [List.find?, hpa] at h
      simpa only [List.cons_append, List.find?, hpa] using ih h

theorem setFields_find_same (fs : List (String × JSValue)) (k : String) (x : JSValue) :
    (setFields fs k x).find? (fun p => p.fst == k) = some (k, x) := by
  induction fs with
  | nil => simp [setFields, List.find?]
  | cons p rest ih =>
    by_cases hp : (p.fst == k) = true
    · simp [setFields, hp, List.find?]
    · simp [setFields, hp, List.find?, ih]

theorem setFields_find_ne (fs : List (String × JSValue)) (k k' : String) (x : JSValue)
    (h : k' ≠ k) :
    (setFields fs k x).find? (fun p => p.fst == k') = fs.find? (fun p => p.fst == k') := by
  have hkk : (k == k') = false := beq_eq_false_iff_ne.mpr (Ne.symm h)
  induction fs with
  | nil => simp [setFields, List.find?, hkk]
  | cons p rest ih =>
    by_cases hp : (p.fst == k) = true
    · have hpk : p.fst = k := by simpa using hp
      simp [setFields, hp, List.find?, hkk, hpk]
    · by_cases hq : (p.fst == k') = true
      · simp [setFields, hp, List.find?, hq]
      · simp [setFields, hp, List.find?, hq, ih]

theorem getField_setField_same (fs : List (String × JSValue)) (k : String) (x : JSValue) :
    getField (setField (.vObj fs) k x) k = x := by
  simp [getField, setField, setFields_find_same]

theorem getField_setField_ne (o : JSValue) (k k' : String) (x : JSValue) (h : k' ≠ k) :
    getField (setField o k x) k' = getField o k' := by
  cases o with
  | vObj fs => simp [getField, setField, setFields_find_ne fs k k' x h]
  | vUndefined => rfl
  | vNull => rfl
  | vBool b => rfl
  | vNum n => rfl
  | vStr s => rfl

theorem map_if_no_match (old : List PaymentRecord) (tx : String)
    (f : PaymentRecord → PaymentRecord)
    (h : ∀ r ∈ old, (r.transaction_id == tx) = false) :
    old.map (fun r => if r.transaction_id == tx then f r else r) = old := by
  induction old with
  | nil => rfl
  | cons a l ih =>
    have ha := h a (by simp)
    simp only [List.map_cons, ha, if_false, Bool.false_eq_true]
    rw [ih (fun r hr => h r (by simp [hr]))]

theorem applyOps_append (db : DB) (l₁ l₂ : List DBOp) :
    applyOps db (l₁ ++ l₂) = applyOps (applyOps db l₁) l₂ := by
  simp [applyOps, List.foldl_append]

theorem applyOps_retryOnly (ms : List (String × Nat)) (tx : String) :
    ∀ (ops : List DBOp), (∀ o ∈ ops, ∃ n, o = DBOp.updateRetry tx n) →
    ∀ (old : List PaymentRecord) (q : PaymentRecord),
      (∀ r ∈ old, (r.transaction_id == tx) = false) →
      (q.transaction_id == tx) = true →
      ∃ q', applyOps ⟨old ++ [q], ms⟩ ops = ⟨old ++ [q'], ms⟩ ∧
        (q'.transaction_id == tx) = true := by
  intro ops
  induction ops with
  | nil => exact fun _ old q hold hq => ⟨q, rfl, hq⟩
  | cons o rest ih =>
    intro hops old q hold hq
    obtain ⟨n, rfl⟩ := hops o (by simp)
    have step : applyOp ⟨old ++ [q], ms⟩ (DBOp.updateRetry tx n) =
        ⟨old ++ [{ q with retry_count := n }], ms⟩ := by
      simp only [applyOp, List.map_append, List.map_cons, List.map_nil]
      rw [map_if_no_match old tx _ hold]
      simp [hq]
    have hstep : applyOps ⟨old ++ [q], ms⟩ (DBOp.updateRetry tx n :: rest) =
        applyOps ⟨old ++ [{ q with retry_count := n }], ms⟩ rest := by
      simp [applyOps, step]
    rw [hstep]
    exact ih (fun o ho => hops o (by simp [ho])) old _ hold hq

theorem applyOp_finalStatus (ms : List (String × Nat)) (old : List PaymentRecord)
    (q : PaymentRecord) (tx st : String) (u e : Option String)
    (hold : ∀ r ∈ old, (r.transaction_id == tx) = false)
    (hq : (q.transaction_id == tx) = true) :
    applyOp ⟨old ++ [q], ms⟩ (DBOp.updateStatus tx st u e) =
      ⟨old ++ [{ q with status := st, uisp_response := u, error_message := e }], ms⟩ := by
  simp only [applyOp, List.map_append, List.map_cons, List.map_nil]
  rw [map_if_no_match old tx _ hold]
  simp [hq]

theorem lookup_appended (ms : List (String × Nat)) (old : List PaymentRecord)
    (fin : PaymentRecord) (tx : String)
    (hold : ∀ r ∈ old, (r.transaction_id == tx) = false)
    (hfin : (fin.transaction_id == tx) = true) :
    getPaymentByTransactionId ⟨old ++ [fin], ms⟩ tx = some fin := by
  unfold getPaymentByTransactionId
  rw [find?_append_of_none _ _ (List.find?_eq_none.mpr (by intro r hr; simp [hold r hr]))]
  simp [List.find?, hfin]

theorem countTx_appended (ms : List (String × Nat)) (old : List PaymentRecord)
    (fin : PaymentRecord) (tx : String)
    (hold : ∀ r ∈ old, (r.transaction_id == tx) = false)
    (hfin : (fin.transaction_id == tx) = true) :
    countTx ⟨old ++ [fin], ms⟩ tx = 1 := by
  have h1 : old.filter (fun r => r.transaction_id == tx) = [] :=
    List.filter_eq_nil_iff.mpr (by intro a ha; simp [hold a ha])
  simp [countTx, List.filter_append, h1, List.filter, hfin]

theorem processPayment_dup (env : Env) (db : DB) (pd1 : JSValue) (cid : Nat)
    (tx : String) (ex : PaymentRecord)
    (h : getPaymentByTransactionId db tx = some ex) :
    processPayment env db pd1 cid tx = duplicateResult ex := by
  simp [processPayment, h]

theorem processPayment_ops_ok (env : Env) (db : DB) (pd1 : JSValue) (cid : Nat)
    (tx : String) (h : getPaymentByTransactionId db tx = none) (resp : String)
    (hr : (postPaymentToUISP env).result = Except.ok resp) :
    (processPayment env db pd1 cid tx).ops =
      DBOp.insert (mkRecord env pd1 cid tx) ::
        ((List.range (postPaymentToUISP env).observerOk).map
          fun i => DBOp.updateRetry tx (i + 1)) ++
        [DBOp.updateStatus tx "success" (some resp) none] := by
  simp [processPayment, h, hr]

theorem processPayment_ops_err (env : Env) (db : DB) (pd1 : JSValue) (cid : Nat)
    (tx : String) (h : getPaymentByTransactionId db tx = none) (e : String)
    (hr : (postPaymentToUISP env).result = Except.error e) :
    (processPayment env db pd1 cid tx).ops =
      DBOp.insert (mkRecord env pd1 cid tx) ::
        ((List.range (postPaymentToUISP env).observerOk).map
          fun i => DBOp.updateRetry tx (i + 1)) ++
        [DBOp.updateStatus tx "failed" none (some e)] := by
  simp [processPayment, h, hr]

theorem processPayment_fresh_db (env : Env) (db : DB) (pd1 : JSValue) (cid : Nat)
    (tx : String) (h : getPaymentByTransactionId db tx = none) :
    ∃ fin, (applyOps db (processPayment env db pd1 cid tx).ops).payments =
        db.payments ++ [fin] ∧
      (fin.transaction_id == tx) = true ∧
      (∀ resp, (postPaymentToUISP env).result = Except.ok resp →
        fin.status = "success" ∧ fin.uisp_response = some resp ∧ fin.error_message = none) ∧
      (∀ e, (postPaymentToUISP env).result = Except.error e →
        fin.status = "failed" ∧ fin.uisp_response = none ∧ fin.error_message = some e) := by
  have hold : ∀ r ∈ db.payments, (r.transaction_id == tx) = false := by
    intro r hr
    have := List.find?_eq_none.mp h r hr
    simpa using this
  have hpr : ((mkRecord env pd1 cid tx).transaction_id == tx) = true := by
    simp [mkRecord]
  have hmid : ∀ o ∈ (List.range (postPaymentToUISP env).observerOk).map
      (fun i => DBOp.updateRetry tx (i + 1)), ∃ n, o = DBOp.updateRetry tx n := by
    intro o ho
    obtain ⟨i, _, rfl⟩ := List.mem_map.mp ho
    exact ⟨i + 1, rfl⟩
  obtain ⟨q', hq'app, hq'tx⟩ := applyOps_retryOnly db.mappings tx _ hmid db.payments
    (mkRecord env pd1 cid tx) hold hpr
  cases hres : (postPaymentToUISP env).result with
  | ok resp =>
    refine ⟨{ q' with status := "success", uisp_response := some resp, error_message := none }, ?_, hq'tx, ?_, ?_⟩
    · rw [processPayment_ops_ok env db pd1 cid tx h resp hres]
      rw [show DBOp.insert (mkRecord env pd1 cid tx) ::
          ((List.range (postPaymentToUISP env).observerOk).map
            fun i => DBOp.updateRetry tx (i + 1)) ++
          [DBOp.updateStatus tx "success" (some resp) none] =
          ([DBOp.insert (mkRecord env pd1 cid tx)] ++
            ((List.range (postPaymentToUISP env).observerOk).map
              fun i => DBOp.updateRetry tx (i + 1))) ++
          [DBOp.updateStatus tx "success" (some resp) none] from by simp]
      rw [applyOps_append, applyOps_append]
      have h1 : applyOps db [DBOp.insert (mkRecord env pd1 cid tx)] =
          ⟨db.payments ++ [mkRecord env pd1 cid tx], db.mappings⟩ := by
        simp [applyOps, applyOp]
      rw [h1, hq'app, applyOps, List.foldl_cons, List.foldl_nil,
        applyOp_finalStatus db.mappings db.payments q' tx "success" (some resp) none hold hq'tx]
    · intro resp' hresp'
      injection hresp' with hh
      subst hh
      exact ⟨rfl, rfl, rfl⟩
    · intro e he
      exact absurd he (by simp)
  | error e =>
    refine ⟨{ q' with status := "failed", uisp_response := none, error_message := some e }, ?_, hq'tx, ?_, ?_⟩
    · rw [processPayment_ops_err env db pd1 cid tx h e hres]
      rw [show DBOp.insert (mkRecord env pd1 cid tx) ::
          ((List.range (postPaymentToUISP env).observerOk).map
            fun i => DBOp.updateRetry tx (i + 1)) ++
          [DBOp.updateStatus tx "failed" none (some e)] =
          ([DBOp.insert (mkRecord env pd1 cid tx)] ++
            ((List.range (postPaymentToUISP env).observerOk).map
              fun i => DBOp.updateRetry tx (i + 1))) ++
          [DBOp.updateStatus tx "failed" none (some e)] from by simp]
      rw [applyOps_append, applyOps_append]
      have h1 : applyOps db [DBOp.insert (mkRecord env pd1 cid tx)] =
          ⟨db.payments ++ [mkRecord env pd1 cid tx], db.mappings⟩ := by
        simp [applyOps, applyOp]
      rw [h1, hq'app, applyOps, List.foldl_cons, List.foldl_nil,
        applyOp_finalStatus db.mappings db.payments q' tx "failed" none (some e) hold hq'tx]
    · intro resp' hresp'
      exact absurd hresp' (by simp)
    · intro e' he'
      injection he' with hh
      subst hh
      exact ⟨rfl, rfl, rfl⟩

theorem processPayment_preserves (env : Env) (db : DB) (pd1 : JSValue) (cid : Nat)
    (tx : String) :
    ∀ pr ∈ db.payments, pr ∈ (applyOps db (processPayment env db pd1 cid tx).ops).payments := by
  intro pr hpr
  cases hdup : getPaymentByTransactionId db tx with
  | some ex =>
    rw [processPayment_dup env db pd1 cid tx ex hdup]
    simpa [applyOps, duplicateResult] using hpr
  | none =>
    obtain ⟨fin, hfin, -⟩ := processPayment_fresh_db env db pd1 cid tx hdup
    rw [hfin]
    exact List.mem_append_left _ hpr

theorem processPayment_pending (env : Env) (db : DB) (pd1 : JSValue) (cid : Nat)
    (tx : String) :
    ∀ pr', DBOp.insert pr' ∈ (processPayment env db pd1 cid tx).ops →
      pr'.status = "pending" := by
  intro pr' hmem
  cases hdup : getPaymentByTransactionId db tx with
  | some ex =>
    rw [processPayment_dup env db pd1 cid tx ex hdup] at hmem
    simp [duplicateResult] at hmem
  | none =>
    cases hres : (postPaymentToUISP env).result with
    | ok resp =>
      rw [processPayment_ops_ok env db pd1 cid tx hdup resp hres] at hmem
      simp [List.mem_append, List.mem_map] at hmem
      subst hmem
      rfl
    | error e =>
      rw [processPayment_ops_err env db pd1 cid tx hdup e hres] at hmem
      simp [List.mem_append, List.mem_map] at hmem
      subst hmem
      rfl

theorem processPayment_shape (env : Env) (db : DB) (pd1 : JSValue) (cid : Nat)
    (tx : String) :
    (processPayment env db pd1 cid tx).ops = [] ∨
      ∃ pr rops st u e,
        (processPayment env db pd1 cid tx).ops =
          DBOp.insert pr :: rops ++ [DBOp.updateStatus pr.transaction_id st u e] ∧
        pr.status = "pending" ∧ (st = "success" ∨ st = "failed") ∧
        ∀ o ∈ rops, ∃ n, o = DBOp.updateRetry pr.transaction_id n := by
  cases hdup : getPaymentByTransactionId db tx with
  | some ex =>
    left
    rw [processPayment_dup env db pd1 cid tx ex hdup]
    rfl
  | none =>
    right
    cases hres : (postPaymentToUISP env).result with
    | ok resp =>
      refine ⟨mkRecord env pd1 cid tx,
        (List.range (postPaymentToUISP env).observerOk).map
          (fun i => DBOp.updateRetry tx (i + 1)),
        "success", some resp, none,
        processPayment_ops_ok env db pd1 cid tx hdup resp hres, rfl, Or.inl rfl, ?_⟩
      intro o ho
      obtain ⟨i, _, rfl⟩ := List.mem_map.mp ho
      exact ⟨i + 1, rfl⟩
    | error e =>
      refine ⟨mkRecord env pd1 cid tx,
        (List.range (postPaymentToUISP env).observerOk).map
          (fun i => DBOp.updateRetry tx (i + 1)),
        "failed", none, some e,
        processPayment_ops_err env db pd1 cid tx hdup e hres, rfl, Or.inr rfl, ?_⟩
      intro o ho
      obtain ⟨i, _, rfl⟩ := List.mem_map.mp ho
      exact ⟨i + 1, rfl⟩

theorem resolve_found_pos (env : Env) (ms : List (String × Nat)) (sid : JSValue)
    (cid : Nat) (c : Bool)
    (h : resolveClient env ms sid = Resolution.found cid c) : cid ≠ 0 := by
  simp only [resolveClient] at h
  by_cases h1 : truthyId (method1 env sid) = true
  · rw [if_pos h1] at h
    cases hm : method1 env sid with
    | none => rw [hm] at h1; simp [truthyId] at h1
    | some n =>
      rw [hm] at h1 h
      have hn : n ≠ 0 := by simpa [truthyId] using h1
      have : n = cid := by simpa using congrArg (fun r => match r with
        | Resolution.found x _ => x | _ => 0) h
      omega
  · rw [if_neg h1] at h
    cases sid with
    | vStr s =>
      dsimp only at h
      by_cases h2 : truthyId (method2 env s) = true
      · rw [if_pos h2] at h
        cases hm : method2 env s with
        | none => rw [hm] at h2; simp [truthyId] at h2
        | some n =>
          rw [hm] at h2 h
          have hn : n ≠ 0 := by simpa [truthyId] using h2
          have : n = cid := by simpa using congrArg (fun r => match r with
            | Resolution.found x _ => x | _ => 0) h
          omega
      · rw [if_neg h2] at h
        by_cases h3 : truthyId (getUispClientId ms s) = true
        · rw [if_pos h3] at h
          cases hm : getUispClientId ms s with
          | none => rw [hm] at h3; simp [truthyId] at h3
          | some n =>
            rw [hm] at h3 h
            have hn : n ≠ 0 := by simpa [truthyId] using h3
            have : n = cid := by simpa using congrArg (fun r => match r with
              | Resolution.found x _ => x | _ => 0) h
            omega
        · rw [if_neg h3] at h
          exact absurd h (by simp)
    | vUndefined => exact absurd h (by simp)
    | vNull => exact absurd h (by simp)
    | vBool b => exact absurd h (by simp)
    | vNum n => exact absurd h (by simp)
    | vObj fs => exact absurd h (by simp)

theorem handle_reaches (env : Env) (db : DB) (body pd0 sid0 : JSValue) (cid : Nat)
    (cons : Bool) (hex : extractPayment body = (pd0, sid0))
    (hpd : truthy pd0 = true) (hk : keysLen pd0 ≠ 0)
    (hsid : truthy (ensureSid pd0 sid0) = true)
    (hres : resolveClient env db.mappings (ensureSid pd0 sid0) = Resolution.found cid cons) :
    handleWebhook env db body = afterResolve env db pd0 (ensureSid pd0 sid0) cid := by
  simp only [handleWebhook, hex, hpd, hk, hsid, hres]
  simp

theorem afterResolve_reaches (env : Env) (db : DB) (pd0 sid : JSValue) (cid : Nat)
    (hmiss : requiredMissing (injectIds pd0 sid cid) = [])
    (htx : truthy (getField (injectIds pd0 sid cid) "transaction_id") = true) :
    afterResolve env db pd0 sid cid =
      processPayment env db (injectIds pd0 sid cid) cid
        (jsToString (getField (injectIds pd0 sid cid) "transaction_id")) := by
  simp only [afterResolve, hmiss, htx, if_true]

theorem retryLoop_all_fail {α} : ∀ (rem att : Nat) (f : Nat → Except String α)
    (g : Nat → Except String Unit),
    (∀ i, att ≤ i → i ≤ att + rem → ∃ e, f i = Except.error e) →
    (∀ n, g n = Except.ok ()) →
    (retryLoop f (some g) att rem).attempts = rem + 1 ∧
      (retryLoop f (some g) att rem).result = f (att + rem) := by
  intro rem
  induction rem with
  | zero =>
    intro att f g hf hg
    obtain ⟨e, he⟩ := hf att (le_refl _) (by omega)
    rw [show att + 0 = att from rfl]
    simp [retryLoop, he]
  | succ rem ih =>
    intro att f g hf hg
    obtain ⟨e, he⟩ := hf att (le_refl _) (by omega)
    have hrec := ih (att + 1) f g (fun i h1 h2 => hf i (by omega) (by omega)) hg
    simp only [retryLoop, he, hg (att + 1)]
    refine ⟨by simp [hrec.1], ?_⟩
    rw [show att + (rem + 1) = att + 1 + rem from by omega]
    simpa using hrec.2

theorem retryLoop_first_success {α} : ∀ (k att rem : Nat) (f : Nat → Except String α)
    (g : Nat → Except String Unit) (a : α),
    (∀ i, att ≤ i → i < att + k → ∃ e, f i = Except.error e) →
    (∀ n, g n = Except.ok ()) →
    f (att + k) = Except.ok a → k ≤ rem →
    retryLoop f (some g) att rem = ⟨Except.ok a, k + 1, k⟩ := by
  intro k
  induction k with
  | zero =>
    intro att rem f g a hfail hg hok hle
    rw [show att + 0 = att from rfl] at hok
    cases rem with
    | zero => simp [retryLoop, hok]
    | succ rem => simp [retryLoop, hok]
  | succ k ih =>
    intro att rem f g a hfail hg hok hle
    obtain ⟨e, he⟩ := hfail att (le_refl _) (by omega)
    cases rem with
    | zero => omega
    | succ rem =>
      have hrec := ih (att + 1) rem f g a
        (fun i h1 h2 => hfail i (by omega) (by omega)) hg
        (by rw [show att + 1 + k = att + (k + 1) from by omega]; exact hok) (by omega)
      simp only [retryLoop, he, hg (att + 1), hrec]

theorem applyOps_mappings (db : DB) (ops : List DBOp) :
    (applyOps db ops).mappings = db.mappings := by
  induction ops generalizing db with
  | nil => rfl
  | cons o rest ih =>
    have hstep : applyOps db (o :: rest) = applyOps (applyOp db o) rest := rfl
    rw [hstep, ih (applyOp db o)]
    cases o <;> rfl

theorem processPayment_attempts (env : Env) (db : DB) (pd1 : JSValue) (cid : Nat)
    (tx : String) (h : getPaymentByTransactionId db tx = none) :
    (processPayment env db pd1 cid tx).forwarderAttempts =
      (postPaymentToUISP env).attempts := by
  simp only [processPayment, h]
  split <;> rfl

theorem handle_cases (env : Env) (db : DB) (body : JSValue) :
    (handleWebhook env db body).ops = [] ∨
    ∃ pd1 cid tx, handleWebhook env db body = processPayment env db pd1 cid tx := by
  simp only [handleWebhook, afterResolve]
  split
  · exact Or.inl rfl
  · split
    · split
      · exact Or.inl rfl
      · exact Or.inl rfl
    · split
      · exact Or.inl rfl
      · exact Or.inl rfl
      · split
        · exact Or.inr ⟨_, _, _, rfl⟩
        · split
          · exact Or.inl rfl
          · exact Or.inl rfl

theorem handle_noSid (env : Env) (db : DB) (body pd0 sid0 : JSValue)
    (hex : extractPayment body = (pd0, sid0))
    (hpd : truthy pd0 = true) (hk : keysLen pd0 ≠ 0)
    (hsid : truthy (ensureSid pd0 sid0) = false) :
    handleWebhook env db body =
      if truthy (getField pd0 "amount") = false ∨ keysLen pd0 < 2 then
        noCustomerTestResult
      else missingCustomerResult := by
  simp only [handleWebhook, hex, hpd, hk, hsid]
  simp

/-! Claim theorems. -/

/-- C9: an empty JSON body and the body with no fields are both answered with
HTTP 200 as a connectivity test: no PaymentRecord is inserted, the forwarder is
never invoked, and the ledger is unchanged. -/
theorem c9_ping_detection (env : Env) (db : DB) :
    (handleWebhook env db (JSValue.vObj [])).httpStatus = 200 ∧
    (handleWebhook env db (JSValue.vObj [])).ops = [] ∧
    (handleWebhook env db (JSValue.vObj [])).forwarderInvoked = false ∧
    applyOps db (handleWebhook env db (JSValue.vObj [])).ops = db :=
  ⟨rfl, rfl, rfl, rfl⟩

/-- C7: formatUispDateTime adds 3 to the UTC hours with no rollover, so an
input instant at 23:30 UTC renders with the invalid hours field 26 and keeps
the UTC calendar date instead of the UTC+3 date. -/
theorem c7_hour_overflow :
    formatUispDateTime 1735774200 = "2025-01-01T26:30:00+03:00" := by
  rfl

/-- C6 counterexample: with an operation that always fails and an observer
that throws on the first retry, retryWithBackoff with budget 3 invokes the
operation exactly once, not 4 times, and propagates the observer error. -/
theorem c6_counterexample :
    (retryWithBackoff (fun _ => (Except.error "op failed" : Except String String))
      (some fun _ => Except.error "observer crashed") 3).result =
        Except.error "observer crashed" ∧
    (retryWithBackoff (fun _ => (Except.error "op failed" : Except String String))
      (some fun _ => Except.error "observer crashed") 3).attempts = 1 ∧
    (retryWithBackoff (fun _ => (Except.error "op failed" : Except String String))
      (some fun _ => Except.error "observer crashed") 3).attempts ≠ 4 :=
  ⟨rfl, rfl, by decide⟩

/-- C6 (amended): when a retry is due and the observer callback itself throws,
the retry loop aborts: the operation is not re-attempted and the observer
error propagates to the caller of retryWithBackoff. -/
theorem c6_amended_observer_aborts {α} (f : Nat → Except String α)
    (g : Nat → Except String Unit) (mR : Nat) (e e2 : String)
    (hf : f 0 = Except.error e) (hg : g 1 = Except.error e2) (hm : 0 < mR) :
    retryWithBackoff f (some g) mR = ⟨Except.error e2, 1, 0⟩ := by
  obtain ⟨rem, rfl⟩ := Nat.exists_eq_succ_of_ne_zero (Nat.pos_iff_ne_zero.mp hm)
  simp [retryWithBackoff, retryLoop, hf, hg]

/-- C6 witness: the amended statement evaluated on a concrete failing
operation and throwing observer with budget 2. -/
theorem c6_witness :
    retryWithBackoff (fun _ => (Except.error "op down" : Except String Nat))
      (some fun _ => Except.error "obs down") 2 =
      ⟨Except.error "obs down", 1, 0⟩ :=
  c6_amended_observer_aborts _ _ 2 "op down" "obs down" rfl rfl (by decide)

/-- C5 counterexample: the payload with a single truthy amount field and no
customer identifier is acknowledged with HTTP 200, although the claim demands
HTTP 400 for it because the amount field is present. -/
theorem c5_counterexample :
    truthy (getField bodyAmountOnly "amount") = true ∧
    keysLen bodyAmountOnly = 1 ∧
    truthy (ensureSid bodyAmountOnly (extractPayment bodyAmountOnly).snd) = false ∧
    (handleWebhook envNoKey dbEmpty bodyAmountOnly).httpStatus = 200 ∧
    (handleWebhook envNoKey dbEmpty bodyAmountOnly).httpStatus ≠ 400 :=
  ⟨rfl, rfl, rfl, rfl, by decide⟩

/-- C5 (amended): for a non-empty payload with no resolvable customer
identifier, the handler responds HTTP 400 Missing customer identification if
and only if the amount field is truthy AND the payload has at least 2 fields;
when the amount is falsy OR the payload has fewer than 2 fields it is instead
acknowledged HTTP 200 as a test, and in either case no PaymentRecord is
created. -/
theorem c5_amended_test_condition (env : Env) (db : DB) (body pd0 sid0 : JSValue)
    (hex : extractPayment body = (pd0, sid0))
    (hpd : truthy pd0 = true) (hk : keysLen pd0 ≠ 0)
    (hsid : truthy (ensureSid pd0 sid0) = false) :
    (((handleWebhook env db body).httpStatus = 400 ∧
      (handleWebhook env db body).errorMsg = some "Missing customer identification") ↔
      (truthy (getField pd0 "amount") = true ∧ 2 ≤ keysLen pd0)) ∧
    ((handleWebhook env db body).httpStatus = 400 ∨
      (handleWebhook env db body).httpStatus = 200) ∧
    (handleWebhook env db body).ops = [] := by
  rw [handle_noSid env db body pd0 sid0 hex hpd hk hsid]
  by_cases hc : truthy (getField pd0 "amount") = false ∨ keysLen pd0 < 2
  · rw [if_pos hc]
    refine ⟨?_, Or.inr rfl, rfl⟩
    constructor
    · intro h
      exact absurd h.1 (by decide)
    · rintro ⟨h1, h2⟩
      rcases hc with hc | hc
      · rw [h1] at hc
        cases hc
      · omega
  · rw [if_neg hc]
    rw [not_or] at hc
    refine ⟨?_, Or.inl rfl, rfl⟩
    constructor
    · intro _
      refine ⟨?_, ?_⟩
      · cases hb : truthy (getField pd0 "amount") with
        | false => exact absurd hb hc.1
        | true => rfl
      · omega
    · intro _
      exact ⟨rfl, rfl⟩

/-- C5 witness: the amended statement evaluated on a payload with a truthy
amount and two fields but no customer identifier, yielding the 400 rejection. -/
theorem c5_witness :
    (handleWebhook envNoKey dbEmpty bodyAmountFoo).httpStatus = 400 ∧
    (handleWebhook envNoKey dbEmpty bodyAmountFoo).errorMsg =
      some "Missing customer identification" :=
  (c5_amended_test_condition envNoKey dbEmpty bodyAmountFoo bodyAmountFoo
    (extractPayment bodyAmountFoo).snd rfl rfl (by decide) rfl).1.mpr ⟨rfl, by decide⟩

/-- C8: findUISPClientByUserIdent returns a not-found outcome (ok none) when no
client in the single limit-1000 fetch has an equal userIdent, raises exactly
for a missing application key or a transport failure of that fetch, and never
raises for the not-found case. -/
theorem c8_find_by_userIdent :
    (∀ (k ui : String) (fetch : Nat → Except String (List UISPClient))
        (cs : List UISPClient),
      fetch 1000 = Except.ok cs → (∀ c ∈ cs, c.userIdent ≠ ui) →
      findUISPClientByUserIdent (some k) fetch ui = Except.ok none) ∧
    (∀ (ak : Option String) (ui e : String)
        (fetch : Nat → Except String (List UISPClient)),
      findUISPClientByUserIdent ak fetch ui = Except.error e →
      ak = none ∨ fetch 1000 = Except.error e) ∧
    (∀ (ui : String) (fetch : Nat → Except String (List UISPClient)),
      findUISPClientByUserIdent none fetch ui =
        Except.error "UISP_APP_KEY not configured") := by
  refine ⟨?_, ?_, ?_⟩
  · intro k ui fetch cs hf hno
    have hfind : cs.find? (fun c => c.userIdent == ui) = none :=
      List.find?_eq_none.mpr (fun c hc => by simp [hno c hc])
    simp [findUISPClientByUserIdent, hf, hfind]
  · intro ak ui e fetch h
    cases ak with
    | none => exact Or.inl rfl
    | some k =>
      right
      simp only [findUISPClientByUserIdent] at h
      cases hf : fetch 1000 with
      | error e' =>
        rw [hf] at h
        injection h with hh
        rw [hh]
      | ok cs =>
        rw [hf] at h
        simp at h
  · intro ui fetch
    rfl

/-- C8 witness: a fetch returning one client with a different userIdent yields
the not-found outcome without an error. -/
theorem c8_witness :
    findUISPClientByUserIdent (some "key")
      (fun _ => Except.ok [⟨1, "A"⟩]) "B" = Except.ok none :=
  c8_find_by_userIdent.1 "key" "B" (fun _ => Except.ok [⟨1, "A"⟩]) [⟨1, "A"⟩]
    rfl (by decide)

/-- C4: when strategy 1 (Splynx-login based userIdent search) resolves the
identifier to a UISP client, the pipeline resolution returns that client id
without consulting the mapping table, even when the mapping table binds the
identifier to a different id; and whenever the mapping table is consulted,
strategies 1 and 2 produced no truthy result. -/
theorem c4_resolution_ordering :
    (∀ (env : Env) (ms : List (String × Nat)) (sid : JSValue) (login : String)
        (c : UISPClient) (cid2 : Nat),
      env.splynxLogin (jsToString sid) = Except.ok login →
      findUISPClientByUserIdent env.appKey env.fetchClients login =
        Except.ok (some c) →
      c.id ≠ 0 →
      getUispClientId ms (jsToString sid) = some cid2 → cid2 ≠ c.id →
      resolveClient env ms sid = Resolution.found c.id false) ∧
    (∀ (env : Env) (ms : List (String × Nat)) (sid : JSValue) (cid : Nat),
      resolveClient env ms sid = Resolution.found cid true →
      truthyId (method1 env sid) = false ∧
      ∃ s, sid = JSValue.vStr s ∧ truthyId (method2 env s) = false) := by
  constructor
  · intro env ms sid login c cid2 h1 h2 hc hmap hne
    have hm1 : method1 env sid = some c.id := by simp [method1, h1, h2]
    have ht : truthyId (some c.id) = true := by simp [truthyId, hc]
    simp [resolveClient, hm1, ht]
  · intro env ms sid cid h
    simp only [resolveClient] at h
    by_cases h1 : truthyId (method1 env sid) = true
    · rw [if_pos h1] at h
      exact absurd h (by simp)
    · rw [if_neg h1] at h
      refine ⟨by simpa using h1, ?_⟩
      cases sid with
      | vStr s =>
        dsimp only at h
        by_cases h2 : truthyId (method2 env s) = true
        · rw [if_pos h2] at h
          exact absurd h (by simp)
        · exact ⟨s, rfl, by simpa using h2⟩
      | vUndefined => exact absurd h (by simp)
      | vNull => exact absurd h (by simp)
      | vBool b => exact absurd h (by simp)
      | vNum n => exact absurd h (by simp)
      | vObj fs => exact absurd h (by simp)

/-- C4 witness: with strategy 1 resolving the identifier C9 to UISP client 7
and the mapping table binding C9 to the different id 5, resolution returns 7
without consulting the mapping table. -/
theorem c4_witness :
    resolveClient envOk [("C9", 5)] (JSValue.vStr "C9") = Resolution.found 7 false :=
  c4_resolution_ordering.1 envOk [("C9", 5)] (JSValue.vStr "C9") "LOGIN7"
    ⟨7, "LOGIN7"⟩ 5 rfl rfl (by decide) rfl (by decide)

/-- C10: a payload whose customer identity resolves but whose amount equals 0
(with at least 3 fields after client id injection) is rejected with HTTP 400
Missing required fields listing exactly amount, and no PaymentRecord is
created: the ledger is unchanged and zero-amount payments are never recorded
or forwarded. -/
theorem c10_zero_amount (env : Env) (db : DB) (body pd0 sid0 : JSValue)
    (fs : List (String × JSValue)) (cid : Nat) (cons : Bool)
    (hex : extractPayment body = (pd0, sid0))
    (hfs : pd0 = JSValue.vObj fs)
    (hk : keysLen pd0 ≠ 0)
    (hsid : truthy (ensureSid pd0 sid0) = true)
    (hres : resolveClient env db.mappings (ensureSid pd0 sid0) = Resolution.found cid cons)
    (hamt : getField pd0 "amount" = JSValue.vNum 0)
    (h3 : 3 ≤ keysLen (injectIds pd0 (ensureSid pd0 sid0) cid)) :
    (handleWebhook env db body).httpStatus = 400 ∧
    (handleWebhook env db body).errorMsg = some "Missing required fields" ∧
    (handleWebhook env db body).missingFields = ["amount"] ∧
    (handleWebhook env db body).forwarderInvoked = false ∧
    (handleWebhook env db body).ops = [] ∧
    applyOps db (handleWebhook env db body).ops = db := by
  have hpd : truthy pd0 = true := by rw [hfs]; rfl
  have hcid : cid ≠ 0 := resolve_found_pos env db.mappings _ cid cons hres
  have hgc : getField (injectIds pd0 (ensureSid pd0 sid0) cid) "client_id" =
      JSValue.vNum (cid : Int) := by
    unfold injectIds
    rw [getField_setField_ne _ _ _ _ (by decide), hfs, getField_setField_same]
  have hga : getField (injectIds pd0 (ensureSid pd0 sid0) cid) "amount" =
      JSValue.vNum 0 := by
    unfold injectIds
    rw [getField_setField_ne _ _ _ _ (by decide),
      getField_setField_ne _ _ _ _ (by decide), hamt]
  have hcidI : ((cid : Int) != 0) = true := by simp [hcid]
  have hmiss : requiredMissing (injectIds pd0 (ensureSid pd0 sid0) cid) = ["amount"] := by
    simp [requiredMissing, hgc, hga, truthy, hcidI]
  rw [handle_reaches env db body pd0 sid0 cid cons hex hpd hk hsid hres]
  have hafter : afterResolve env db pd0 (ensureSid pd0 sid0) cid =
      missingFieldsResult ["amount"] := by
    simp only [afterResolve, hmiss]
    rw [if_neg (by simp), if_neg (by omega)]
  rw [hafter]
  exact ⟨rfl, rfl, rfl, rfl, rfl, rfl⟩

/-- C10 witness: the concrete zero-amount payload is rejected with exactly the
amount field listed as missing. -/
theorem c10_witness :
    (handleWebhook envOk dbEmpty bodyZeroAmount).httpStatus = 400 ∧
    (handleWebhook envOk dbEmpty bodyZeroAmount).missingFields = ["amount"] :=
  ⟨(c10_zero_amount envOk dbEmpty bodyZeroAmount bodyZeroAmount
      (JSValue.vStr "C9")
      [("customer_id", .vStr "C9"), ("amount", .vNum 0), ("transaction_id", .vStr "TX1")]
      7 false rfl rfl (by decide) rfl rfl rfl (by decide)).1,
   (c10_zero_amount envOk dbEmpty bodyZeroAmount bodyZeroAmount
      (JSValue.vStr "C9")
      [("customer_id", .vStr "C9"), ("amount", .vNum 0), ("transaction_id", .vStr "TX1")]
      7 false rfl rfl (by decide) rfl rfl rfl (by decide)).2.2.1⟩

/-- C2: every PaymentRecord the pipeline inserts has status pending; a run
issues at most one status update, which is terminal (success or failed),
follows the pending insert of the same transaction id after its retry-count
updates; and no pre-existing payment row is ever mutated, so no record moves
out of a terminal status or skips pending. -/
theorem c2_state_machine (env : Env) (db : DB) (body : JSValue) :
    (∀ pr, DBOp.insert pr ∈ (handleWebhook env db body).ops → pr.status = "pending") ∧
    ((handleWebhook env db body).ops = [] ∨
      ∃ pr rops st u e,
        (handleWebhook env db body).ops =
          DBOp.insert pr :: rops ++ [DBOp.updateStatus pr.transaction_id st u e] ∧
        pr.status = "pending" ∧ (st = "success" ∨ st = "failed") ∧
        ∀ o ∈ rops, ∃ n, o = DBOp.updateRetry pr.transaction_id n) ∧
    (∀ pr ∈ db.payments, pr ∈ (applyOps db (handleWebhook env db body).ops).payments) := by
  rcases handle_cases env db body with h | ⟨pd1, cid, tx, h⟩
  · refine ⟨?_, Or.inl h, ?_⟩
    · intro pr hpr
      rw [h] at hpr
      simp at hpr
    · intro pr hpr
      rw [h]
      simpa [applyOps] using hpr
  · rw [h]
    exact ⟨processPayment_pending env db pd1 cid tx,
      processPayment_shape env db pd1 cid tx,
      processPayment_preserves env db pd1 cid tx⟩

/-- C2 witness: the record inserted by a concrete successful run has status
pending. -/
theorem c2_witness :
    (mkRecord envOk (injectIds bodyFull (JSValue.vStr "C9") 7) 7 "TX1").status =
      "pending" :=
  (c2_state_machine envOk dbEmpty bodyFull).1 _
    (by
      rw [show (handleWebhook envOk dbEmpty bodyFull).ops =
        [DBOp.insert (mkRecord envOk (injectIds bodyFull (JSValue.vStr "C9") 7) 7 "TX1"),
         DBOp.updateStatus "TX1" "success" (some "resp-body") none] from rfl]
      exact List.mem_cons_self _ _)

/-- C1: when the payload carries a transaction id already present in the
ledger, the handler answers HTTP 200 echoing the stored record status, does
not invoke the forwarder, issues no ledger write, and leaves the ledger
unchanged; when the transaction id is fresh, the run stores exactly one record
for it and an identical second submission is answered idempotently, leaving
exactly one record. -/
theorem c1_idempotency (env : Env) (db : DB) (body pd0 sid0 : JSValue) (cid : Nat)
    (cons : Bool) (tx : String)
    (hex : extractPayment body = (pd0, sid0))
    (hpd : truthy pd0 = true) (hk : keysLen pd0 ≠ 0)
    (hsid : truthy (ensureSid pd0 sid0) = true)
    (hres : resolveClient env db.mappings (ensureSid pd0 sid0) = Resolution.found cid cons)
    (hmiss : requiredMissing (injectIds pd0 (ensureSid pd0 sid0) cid) = [])
    (htx : truthy (getField (injectIds pd0 (ensureSid pd0 sid0) cid) "transaction_id") = true)
    (htxv : jsToString (getField (injectIds pd0 (ensureSid pd0 sid0) cid) "transaction_id") = tx) :
    (∀ ex, getPaymentByTransactionId db tx = some ex →
      handleWebhook env db body = duplicateResult ex ∧
      applyOps db (handleWebhook env db body).ops = db) ∧
    (getPaymentByTransactionId db tx = none →
      countTx (applyOps db (handleWebhook env db body).ops) tx = 1 ∧
      (handleWebhook env (applyOps db (handleWebhook env db body).ops) body).ops = [] ∧
      (handleWebhook env (applyOps db (handleWebhook env db body).ops) body).forwarderInvoked = false ∧
      (handleWebhook env (applyOps db (handleWebhook env db body).ops) body).httpStatus = 200 ∧
      countTx (applyOps (applyOps db (handleWebhook env db body).ops)
        (handleWebhook env (applyOps db (handleWebhook env db body).ops) body).ops) tx = 1) := by
  have hred : handleWebhook env db body =
      processPayment env db (injectIds pd0 (ensureSid pd0 sid0) cid) cid tx := by
    rw [handle_reaches env db body pd0 sid0 cid cons hex hpd hk hsid hres,
      afterResolve_reaches env db pd0 _ cid hmiss htx, htxv]
  constructor
  · intro ex hdup
    rw [hred, processPayment_dup env db _ cid tx ex hdup]
    exact ⟨rfl, rfl⟩
  · intro hnone
    have hold : ∀ r ∈ db.payments, (r.transaction_id == tx) = false := by
      intro r hr
      have := List.find?_eq_none.mp hnone r hr
      simpa using this
    obtain ⟨fin, hfin, hfintx, -, -⟩ := processPayment_fresh_db env db _ cid tx hnone
    have hdb1 : applyOps db (handleWebhook env db body).ops =
        ⟨db.payments ++ [fin], db.mappings⟩ := by
      have hm : (applyOps db (handleWebhook env db body).ops).mappings = db.mappings :=
        applyOps_mappings db _
      have hp : (applyOps db (handleWebhook env db body).ops).payments =
          db.payments ++ [fin] := by rw [hred]; exact hfin
      rw [show applyOps db (handleWebhook env db body).ops =
        ⟨(applyOps db (handleWebhook env db body).ops).payments,
         (applyOps db (handleWebhook env db body).ops).mappings⟩ from rfl, hp, hm]
    have hcount : countTx (applyOps db (handleWebhook env db body).ops) tx = 1 := by
      rw [hdb1]
      exact countTx_appended db.mappings db.payments fin tx hold hfintx
    have hres2 : resolveClient env
        (applyOps db (handleWebhook env db body).ops).mappings
        (ensureSid pd0 sid0) = Resolution.found cid cons := by
      rw [applyOps_mappings db _]
      exact hres
    have hlook : getPaymentByTransactionId
        (applyOps db (handleWebhook env db body).ops) tx = some fin := by
      rw [hdb1]
      exact lookup_appended db.mappings db.payments fin tx hold hfintx
    have hred2 : handleWebhook env (applyOps db (handleWebhook env db body).ops) body =
        duplicateResult fin := by
      rw [handle_reaches env _ body pd0 sid0 cid cons hex hpd hk hsid hres2,
        afterResolve_reaches env _ pd0 _ cid hmiss htx, htxv,
        processPayment_dup env _ _ cid tx fin hlook]
    rw [hred2]
    exact ⟨hcount, rfl, rfl, rfl, hcount⟩

/-- C1 witness: replaying the transaction id TX1 against a ledger already
holding it yields the idempotent duplicate response and an unchanged ledger. -/
theorem c1_witness :
    handleWebhook envOk dbOne bodyFull = duplicateResult dbOneRecord ∧
    applyOps dbOne (handleWebhook envOk dbOne bodyFull).ops = dbOne :=
  (c1_idempotency envOk dbOne bodyFull bodyFull (JSValue.vStr "C9") 7 false "TX1"
    rfl rfl (by decide) rfl rfl rfl rfl rfl).1 dbOneRecord rfl

/-- C3: with maxRetries 3 and an operation failing on every attempt,
retryWithBackoff invokes the operation exactly 4 times and re-raises the last
error; the payment pipeline then records status failed with that last error
message after 4 forwarder attempts; dually, an operation first succeeding at
attempt k within the budget returns immediately after k + 1 invocations. -/
theorem c3_retry_budget :
    (∀ (f : Nat → Except String String) (g : Nat → Except String Unit),
      (∀ i, i ≤ 3 → ∃ e, f i = Except.error e) → (∀ n, g n = Except.ok ()) →
      (retryWithBackoff f (some g) 3).attempts = 4 ∧
        (retryWithBackoff f (some g) 3).result = f 3) ∧
    (∀ (env : Env) (db : DB) (pd1 : JSValue) (cid : Nat) (tx kk e3 : String),
      env.appKey = some kk → env.maxRetries = 3 →
      (∀ i, i ≤ 3 → ∃ e, env.attempts i = Except.error e) →
      env.attempts 3 = Except.error e3 →
      (∀ n, env.retryObserver n = Except.ok ()) →
      getPaymentByTransactionId db tx = none →
      (processPayment env db pd1 cid tx).forwarderAttempts = 4 ∧
      ∃ fin, getPaymentByTransactionId
          (applyOps db (processPayment env db pd1 cid tx).ops) tx = some fin ∧
        fin.status = "failed" ∧ fin.error_message = some e3) ∧
    (∀ (α : Type) (f : Nat → Except String α) (g : Nat → Except String Unit)
        (a : α) (k mR : Nat),
      (∀ i, i < k → ∃ e, f i = Except.error e) → (∀ n, g n = Except.ok ()) →
      f k = Except.ok a → k ≤ mR →
      (retryWithBackoff f (some g) mR).attempts = k + 1 ∧
        (retryWithBackoff f (some g) mR).result = Except.ok a) := by
  refine ⟨?_, ?_, ?_⟩
  · intro f g hf hg
    have h := retryLoop_all_fail 3 0 f g (fun i _ h2 => hf i (by omega)) hg
    exact ⟨h.1, h.2⟩
  · intro env db pd1 cid tx kk e3 hkey hmax hf he3 hg hnone
    have hpost : postPaymentToUISP env = retryLoop env.attempts (some env.retryObserver) 0 3 := by
      simp [postPaymentToUISP, hkey, retryWithBackoff, hmax]
    have hfail := retryLoop_all_fail 3 0 env.attempts env.retryObserver
      (fun i _ h2 => hf i (by omega)) hg
    have hresE : (postPaymentToUISP env).result = Except.error e3 := by
      rw [hpost, hfail.2]
      exact he3
    constructor
    · rw [processPayment_attempts env db pd1 cid tx hnone, hpost, hfail.1]
    · have hold : ∀ r ∈ db.payments, (r.transaction_id == tx) = false := by
        intro r hr
        have := List.find?_eq_none.mp hnone r hr
        simpa using this
      obtain ⟨fin, hfin, hfintx, -, herr⟩ := processPayment_fresh_db env db pd1 cid tx hnone
      refine ⟨fin, ?_, (herr e3 hresE).1, (herr e3 hresE).2.2⟩
      unfold getPaymentByTransactionId
      rw [hfin, find?_append_of_none _ _
        (List.find?_eq_none.mpr (fun r hr => by simp [hold r hr]))]
      simp [List.find?, hfintx]
  · intro α f g a k mR hfail hg hok hle
    have h := retryLoop_first_success k 0 mR f g a
      (fun i _ h2 => hfail i (by omega)) hg (by rw [Nat.zero_add]; exact hok) hle
    rw [retryWithBackoff, h]
    exact ⟨rfl, rfl⟩

/-- C3 witness: a concrete always-failing operation under budget 3 is invoked
4 times and the final error is the last attempt error. -/
theorem c3_witness :
    (retryWithBackoff (fun i => (Except.error ("err" ++ toString i) : Except String String))
      (some fun _ => Except.ok ()) 3).attempts = 4 ∧
    (retryWithBackoff (fun i => (Except.error ("err" ++ toString i) : Except String String))
      (some fun _ => Except.ok ()) 3).result = Except.error "err3" := by
  have h := c3_retry_budget.1 (fun i => Except.error ("err" ++ toString i))
    (fun _ => Except.ok ()) (fun i _ => ⟨"err" ++ toString i, rfl⟩) (fun _ => rfl)
  exact ⟨h.1, by rw [h.2]; rfl⟩
